import Mathlib

/-!
Shallow embedding of the date-resolution core of stock-view's
`streamlit_app.py`: `standardize_datetime` (lines 16-35), the extractor
chain (`extract_date_from_json_ld`, lines 59-86; `extract_date_from_meta_tags`,
lines 88-113; `extract_date_from_common_patterns`, lines 115-138; the inline
time-tag check, lines 182-189), `get_page_last_modified` (lines 140-195) and
`get_news_links` (lines 197-221).

External libraries the source calls (pandas `pd.to_datetime`, `json.loads`,
`re.findall`, the network fetch) are modelled as an environment of abstract
functions; `none` models a raised exception wherever the source catches one.
A Python datetime is a wall-clock reading plus an optional fixed UTC offset.
-/

namespace StockView

/-- A Python datetime: the wall-clock reading (in seconds, as the fields
would be read in the value's own zone) plus an optional fixed UTC offset in
seconds (`none` models a timezone-naive value). -/
structure PyDatetime where
  wall : Int
  tz : Option Int
deriving DecidableEq, Repr

/-- The absolute instant a timezone-aware value denotes (seconds since the
epoch); `none` for a naive value. -/
def utcInstant (d : PyDatetime) : Option Int :=
  d.tz.map (fun off => d.wall - off)

/-- A parsed JSON value, the result of a successful `json.loads`. -/
inductive Json where
  | obj (fields : List (String × Json))
  | arr (elems : List Json)
  | str (s : String)
  | num (n : Int)
  | bool (b : Bool)
  | null

/-- The possible arguments of `standardize_datetime`: a null-like value
(`None` / `pd.NaT`), a string, or an already-parsed datetime. -/
inductive DtInput where
  | null
  | str (s : String)
  | dt (d : PyDatetime)

/-- A `meta` element as the extractor sees it: its `property`, `name` and
`content` attributes (absent attribute = `none`). -/
structure MetaTag where
  property : Option String
  name : Option String
  content : Option String
deriving DecidableEq, Repr

/-- A `time` element: its `datetime` and `data-datetime` attributes. -/
structure TimeTag where
  datetime : Option String
  dataDatetime : Option String
deriving DecidableEq, Repr

/-- The parsed document (`BeautifulSoup(response.text, 'html.parser')`):
the `script type="application/ld+json"` block strings, the `meta` elements
and the `time` elements, each in document order. -/
structure Soup where
  jsonLdBlocks : List String
  metaTags : List MetaTag
  timeTags : List TimeTag

/-- A successful HTTP response: the `last-modified` header (if any), the
parsed body, and the raw body text. -/
structure Response where
  lastModified : Option String
  soup : Soup
  text : String

/-- The kind of a failed fetch: `requests.get` timing out, a connection/DNS
error, or a non-2xx status raised by `response.raise_for_status()`. -/
inductive ErrKind where
  | timeout
  | network
  | http (statusCode : Nat)
deriving DecidableEq, Repr

/-- The outcome of fetching one URL. -/
inductive FetchResult where
  | err (k : ErrKind)
  | ok (r : Response)

/-- What `get_page_last_modified` can return: Python `None`, `pd.NaT`, or a
datetime. -/
inductive PipelineResult where
  | none
  | NaT
  | date (d : PyDatetime)
deriving DecidableEq, Repr

/-- The external library functions the source calls: `parse` is
`pd.to_datetime` on a string (`none` = the call raises), `parseOther` is
`pd.to_datetime` on a non-string JSON value, `jsonLoads` is `json.loads`
(`none` = the call raises), and `findall pat text` is `re.findall`. -/
structure Env where
  parse : String → Option PyDatetime
  parseOther : Json → Option PyDatetime
  jsonLoads : String → Option Json
  findall : String → String → List String

/-- Python truthiness of an optional string: `None` and `""` are falsy. -/
def truthyStr : Option String → Bool
  | Option.none => false
  | some s => !(s == "")

/-- Python `a or b` on optional strings (line 184). -/
def pyOr (a b : Option String) : Option String :=
  if truthyStr a then a else b

/-- Lines 29-33: `dt.replace(tzinfo=pytz.UTC)` on a naive value keeps the
wall clock; `dt.astimezone(pytz.UTC)` on an aware value keeps the instant. -/
def normalizeTz (d : PyDatetime) : PyDatetime :=
  match d.tz with
  | Option.none => { d with tz := some 0 }
  | some off => ⟨d.wall - off, some 0⟩

/-- `standardize_datetime` (lines 16-35); the `none` result models `pd.NaT`. -/
def standardize_datetime (env : Env) : DtInput → Option PyDatetime
  | .null => Option.none
  | .str s =>
    match env.parse s with
    | Option.none => Option.none
    | some d => some (normalizeTz d)
  | .dt d => some (normalizeTz d)

/-- The field priority list of `extract_date_from_json_ld` (lines 70-75). -/
def date_fields : List String :=
  ["dateModified", "datePublished", "dateCreated", "uploadDate"]

/-- `pd.to_datetime(data[field])` applied to a JSON value. -/
def parseJsonVal (env : Env) : Json → Option PyDatetime
  | .str s => env.parse s
  | j => env.parseOther j

/-- Python `f == e` comparing a string against a JSON value. -/
def jsonIsStr (f : String) : Json → Bool
  | .str s => f == s
  | _ => false

/-- Substring test on character lists (Python `n in s` for strings). -/
def subList (n : List Char) : List Char → Bool
  | [] => n.isEmpty
  | c :: rest => n.isPrefixOf (c :: rest) || subList n rest

/-- Python `field in data` (line 78): key lookup for a dict, substring test
for a string, membership for a list; `none` models the `TypeError` raised on
any other type (caught by the outer `except` of the block loop). -/
def pyIn (f : String) : Json → Option Bool
  | .obj o => some (o.lookup f).isSome
  | .str s => some (subList f.toList s.toList)
  | .arr es => some (es.any (jsonIsStr f))
  | _ => Option.none

/-- `pd.to_datetime(data[field])` (line 80); `none` models an exception
inside the inner `try` (a bad subscript or a failed parse). -/
def getField (env : Env) (f : String) : Json → Option PyDatetime
  | .obj o =>
    match o.lookup f with
    | some v => parseJsonVal env v
    | Option.none => Option.none
  | _ => Option.none

/-- The field loop of `extract_date_from_json_ld` (lines 77-82).
`none` = a `TypeError` escaping to the outer `except`; `some none` = every
field tried without a `return`; `some (some d)` = `return` with `d`. -/
def tryFields (env : Env) (data : Json) : List String → Option (Option PyDatetime)
  | [] => some Option.none
  | f :: fs =>
    match pyIn f data with
    | Option.none => Option.none
    | some false => tryFields env data fs
    | some true =>
      match getField env f data with
      | some d => some (some d)
      | Option.none => tryFields env data fs

/-- Lines 66-67: `if isinstance(data, list): data = data[0]`; `none` models
the `IndexError` raised on an empty list. -/
def unwrapList : Json → Option Json
  | .arr [] => Option.none
  | .arr (x :: _) => some x
  | j => some j

/-- `extract_date_from_json_ld` (lines 59-86), over the document's JSON-LD
block strings in document order. -/
def extract_date_from_json_ld (env : Env) : List String → Option PyDatetime
  | [] => Option.none
  | b :: bs =>
    match env.jsonLoads b with
    | Option.none => extract_date_from_json_ld env bs
    | some data =>
      match unwrapList data with
      | Option.none => extract_date_from_json_ld env bs
      | some d =>
        match tryFields env d date_fields with
        | some (some r) => some r
        | _ => extract_date_from_json_ld env bs

/-- The ordered property-name list of `extract_date_from_meta_tags`
(lines 90-103). -/
def meta_date_properties : List String :=
  ["article:modified_time", "article:published_time", "og:updated_time",
   "og:published_time", "lastmod", "pubdate", "date", "sailthru.date",
   "citation_publication_date", "dcterms.modified", "dcterms.created",
   "parsely-pub-date"]

/-- `soup.find('meta', ...)` filtered by one attribute: the first element in
document order whose attribute equals `p`. -/
def findMetaBy (attr : MetaTag → Option String) (p : String) (tags : List MetaTag) : Option MetaTag :=
  tags.find? (fun t => attr t == some p)

/-- Line 107: the `property`-attribute find, `or` the `name`-attribute find. -/
def selectMeta (p : String) (tags : List MetaTag) : Option MetaTag :=
  match findMetaBy MetaTag.property p tags with
  | some t => some t
  | Option.none => findMetaBy MetaTag.name p tags

/-- The property loop of `extract_date_from_meta_tags` (lines 105-112). -/
def metaLoop (env : Env) (tags : List MetaTag) : List String → Option PyDatetime
  | [] => Option.none
  | p :: ps =>
    match selectMeta p tags with
    | some t =>
      if truthyStr t.content then
        match env.parse (t.content.getD "") with
        | some d => some d
        | Option.none => metaLoop env tags ps
      else metaLoop env tags ps
    | Option.none => metaLoop env tags ps

/-- `extract_date_from_meta_tags` (lines 88-113). -/
def extract_date_from_meta_tags (env : Env) (tags : List MetaTag) : Option PyDatetime :=
  metaLoop env tags meta_date_properties

/-- The regular-expression list of `extract_date_from_common_patterns`
(lines 118-129), kept verbatim; the matching itself is the external
`re.findall` held in the environment. -/
def patterns : List String :=
  ["datetime=\"([^\"]+)\"",
   "published-date=\"([^\"]+)\"",
   "class=\"date[^\"]*\">([^<]+)",
   "class=\"time[^\"]*\">([^<]+)",
   "data-date=\"([^\"]+)\"",
   "\"datePublished\":\"([^\"]+)\"",
   "\"dateModified\":\"([^\"]+)\"",
   "\\d{4}-\\d{2}-\\d{2}T\\d{2}:\\d{2}:\\d{2}",
   "\\d{4}/\\d{2}/\\d{2} \\d{2}:\\d{2}:\\d{2}"]

/-- The inner match loop (lines 133-137): the first match that parses. -/
def firstParsedMatch (env : Env) : List String → Option PyDatetime
  | [] => Option.none
  | m :: ms =>
    match env.parse m with
    | some d => some d
    | Option.none => firstParsedMatch env ms

/-- The pattern loop of `extract_date_from_common_patterns` (lines 131-137). -/
def patLoop (env : Env) (htmlText : String) : List String → Option PyDatetime
  | [] => Option.none
  | p :: ps =>
    match firstParsedMatch env (env.findall p htmlText) with
    | some d => some d
    | Option.none => patLoop env htmlText ps

/-- `extract_date_from_common_patterns` (lines 115-138). -/
def extract_date_from_common_patterns (env : Env) (htmlText : String) : Option PyDatetime :=
  patLoop env htmlText patterns

/-- Wraps `return standardize_datetime(x)`: a `pd.NaT` result is returned
as `.NaT`, a datetime as `.date`. -/
def toResult : Option PyDatetime → PipelineResult
  | Option.none => .NaT
  | some d => .date d

/-- The body chain of `get_page_last_modified` after the header branch
(lines 161-191): JSON-LD, then meta tags, then patterns, then the first
`time` element's `datetime`-or-`data-datetime` attribute. -/
def bodyChain (env : Env) (r : Response) : PipelineResult :=
  match extract_date_from_json_ld env r.soup.jsonLdBlocks with
  | some d => toResult (standardize_datetime env (.dt d))
  | Option.none =>
    match extract_date_from_meta_tags env r.soup.metaTags with
    | some d => toResult (standardize_datetime env (.dt d))
    | Option.none =>
      match extract_date_from_common_patterns env r.text with
      | some d => toResult (standardize_datetime env (.dt d))
      | Option.none =>
        match r.soup.timeTags.head? with
        | some t =>
          if truthyStr (pyOr t.datetime t.dataDatetime) then
            toResult (standardize_datetime env (.str ((pyOr t.datetime t.dataDatetime).getD "")))
          else .none
        | Option.none => .none

/-- `get_page_last_modified` (lines 140-195).  A fetch failure of any kind
(timeout, connection error, or non-2xx via `raise_for_status`) lands in the
outer `except` (lines 193-195), which prints a message and returns `None`.
A truthy `last-modified` header short-circuits the body (lines 154-159). -/
def get_page_last_modified (env : Env) : FetchResult → PipelineResult
  | .err _ => .none
  | .ok r =>
    match r.lastModified with
    | some s =>
      if s = "" then bodyChain env r
      else toResult (standardize_datetime env (.str s))
    | Option.none => bodyChain env r

/-- One row of `news_data` (lines 208-212). -/
structure NewsRow where
  stock : String
  link : String
  lastUpdated : PipelineResult
deriving DecidableEq, Repr

/-- One symbol's search outcome: `none` models the `search` call raising
(the per-symbol `except` at lines 213-214 shows a warning and produces no
rows); `some links` pairs each discovered URL with its fetch world. -/
abbrev SearchOutcome := Option (List (String × FetchResult))

/-- The inner link loop (lines 206-212), appending one row per link. -/
def linkLoop (env : Env) (sym : String) (acc : List NewsRow) : List (String × FetchResult) → List NewsRow
  | [] => acc
  | (url, fr) :: rest =>
    linkLoop env sym (acc ++ [⟨sym, url, get_page_last_modified env fr⟩]) rest

/-- The symbol loop (lines 200-214). -/
def symbolLoop (env : Env) (acc : List NewsRow) : List (String × SearchOutcome) → List NewsRow
  | [] => acc
  | (_, Option.none) :: rest => symbolLoop env acc rest
  | (sym, some links) :: rest => symbolLoop env (linkLoop env sym acc links) rest

/-- The final column pass (line 219):
`standardize_datetime(x) if pd.notnull(x) else pd.NaT`. -/
def finalizeCell (env : Env) : PipelineResult → PipelineResult
  | .none => .NaT
  | .NaT => .NaT
  | .date d => toResult (standardize_datetime env (.dt d))

/-- `get_news_links` (lines 197-221).  Line 216 builds
`pd.DataFrame(news_data)`; when no rows were collected that frame has no
columns, so the column read `df['Last Updated']` on the right-hand side of
line 219 raises `KeyError`, which propagates to the caller (modeled
`none`).  Otherwise line 219 re-standardizes the column cell-wise and the
frame is returned. -/
def get_news_links (env : Env) (symbols : List (String × SearchOutcome)) : Option (List NewsRow) :=
  if (symbolLoop env [] symbols).isEmpty then Option.none
  else some ((symbolLoop env [] symbols).map
    (fun r => { r with lastUpdated := finalizeCell env r.lastUpdated }))

/-- A raw extraction result before normalization: a string (header or time
attribute) or an already-parsed datetime (the body extractors). -/
inductive RawVal where
  | s (v : String)
  | d (v : PyDatetime)

/-- The first non-null element of a list of optional raw values. -/
def firstRaw : List (Option RawVal) → Option RawVal
  | [] => Option.none
  | Option.none :: rest => firstRaw rest
  | some v :: _ => some v

/-- The raw result of the header strategy: the `last-modified` header when
truthy. -/
def headRaw : Option String → Option RawVal
  | some s => if s = "" then Option.none else some (.s s)
  | Option.none => Option.none

/-- Spec-side: the five strategies' raw extraction results in the spec's
fixed order — HTTP header, JSON-LD, meta tags, patterns, time tag. -/
def rawExtracts (env : Env) (r : Response) : List (Option RawVal) :=
  [headRaw r.lastModified,
   (extract_date_from_json_ld env r.soup.jsonLdBlocks).map RawVal.d,
   (extract_date_from_meta_tags env r.soup.metaTags).map RawVal.d,
   (extract_date_from_common_patterns env r.text).map RawVal.d,
   (match r.soup.timeTags.head? with
    | some t =>
      if truthyStr (pyOr t.datetime t.dataDatetime) then
        some (.s ((pyOr t.datetime t.dataDatetime).getD ""))
      else Option.none
    | Option.none => Option.none)]

/-- Normalization of a raw extraction result. -/
def normalizeRaw (env : Env) : RawVal → PipelineResult
  | .s v => toResult (standardize_datetime env (.str v))
  | .d v => toResult (standardize_datetime env (.dt v))

/-- Spec-side pipeline (spec section 4.7): the first strategy yielding a
non-null raw value wins and its normalization is returned. -/
def chainResolve (env : Env) (r : Response) : PipelineResult :=
  match firstRaw (rawExtracts env r) with
  | some raw => normalizeRaw env raw
  | Option.none => .none

/-- The first non-null element of a list of optional datetimes. -/
def firstSome : List (Option PyDatetime) → Option PyDatetime
  | [] => Option.none
  | Option.none :: rest => firstSome rest
  | some d :: _ => some d

/-- Spec-side value of one JSON-LD block: what the block loop body would
`return` for this block, `none` if it falls through. -/
def jsonLdBlockValue (env : Env) (b : String) : Option PyDatetime :=
  match env.jsonLoads b with
  | Option.none => Option.none
  | some data =>
    match unwrapList data with
    | Option.none => Option.none
    | some d =>
      match tryFields env d date_fields with
      | some (some r) => some r
      | _ => Option.none

/-- Spec-side value of one meta property name: the date of the selected
element when it has truthy content that parses. -/
def metaPropValue (env : Env) (tags : List MetaTag) (p : String) : Option PyDatetime :=
  match selectMeta p tags with
  | some t => if truthyStr t.content then env.parse (t.content.getD "") else Option.none
  | Option.none => Option.none

/-- Spec-side row list for `get_news_links`: one block of rows per symbol
whose search succeeded, one row per discovered URL, in input order. -/
def newsSpec (env : Env) : List (String × SearchOutcome) → List NewsRow
  | [] => []
  | (_, Option.none) :: rest => newsSpec env rest
  | (sym, some links) :: rest =>
    links.map (fun q => ⟨sym, q.1, get_page_last_modified env q.2⟩) ++ newsSpec env rest

/-- The discovered URLs, in input order. -/
def urlsOf : List (String × SearchOutcome) → List String
  | [] => []
  | (_, Option.none) :: rest => urlsOf rest
  | (_, some links) :: rest => links.map Prod.fst ++ urlsOf rest

/-! ### Concrete environments used by witnesses and counterexamples -/

/-- A minimal environment in which every external call fails. -/
def envEmpty : Env :=
  ⟨fun _ => Option.none, fun _ => Option.none, fun _ => Option.none, fun _ _ => []⟩

/-- An environment whose parser knows two strings, one aware and one naive. -/
def envW : Env :=
  ⟨fun s =>
    if s = "good-aware" then some ⟨100, some 60⟩
    else if s = "good-naive" then some ⟨100, Option.none⟩
    else Option.none,
   fun _ => Option.none, fun _ => Option.none, fun _ _ => []⟩

/-- An environment whose parser knows the RFC-1123 header of the spec's
header example; `1692093600` is the epoch-second reading of
2023-08-15T10:00:00Z. -/
def envC7 : Env :=
  ⟨fun s =>
    if s = "Tue, 15 Aug 2023 10:00:00 GMT" then some ⟨1692093600, some 0⟩
    else Option.none,
   fun _ => Option.none, fun _ => Option.none, fun _ _ => []⟩

/-! ### Helper lemmas -/

theorem normalizeTz_tz (d : PyDatetime) : (normalizeTz d).tz = some 0 := by
  obtain ⟨w, tz⟩ := d
  cases tz <;> rfl

theorem standardize_tz (env : Env) (inp : DtInput) (d : PyDatetime)
    (h : standardize_datetime env inp = some d) : d.tz = some 0 := by
  cases inp with
  | null => simp [standardize_datetime] at h
  | str s =>
    cases hp : env.parse s with
    | none => simp [standardize_datetime, hp] at h
    | some d0 =>
      simp [standardize_datetime, hp] at h
      subst h
      exact normalizeTz_tz d0
  | dt d0 =>
    simp [standardize_datetime] at h
    subst h
    exact normalizeTz_tz d0

theorem toResult_date (o : Option PyDatetime) (d : PyDatetime)
    (h : toResult o = .date d) : o = some d := by
  cases o with
  | none => simp [toResult] at h
  | some x => simp [toResult] at h; simp [h]

theorem bodyChain_date_tz (env : Env) (r : Response) (d : PyDatetime)
    (h : bodyChain env r = .date d) : d.tz = some 0 := by
  unfold bodyChain at h
  repeat' split at h
  all_goals
    first
      | exact standardize_tz env _ d (toResult_date _ d h)
      | simp at h

/-! ### C1 -/

/-- C1: every non-null result of `standardize_datetime` — and hence every
date returned by `get_page_last_modified` — is timezone-aware with UTC
offset zero; no naive value is ever returned. -/
theorem utc_invariant :
    (∀ (env : Env) (inp : DtInput) (d : PyDatetime),
       standardize_datetime env inp = some d → d.tz = some 0)
  ∧ (∀ (env : Env) (fr : FetchResult) (d : PyDatetime),
       get_page_last_modified env fr = .date d → d.tz = some 0) := by
  constructor
  · exact standardize_tz
  · intro env fr d h
    cases fr with
    | err k => simp [get_page_last_modified] at h
    | ok r =>
      unfold get_page_last_modified at h
      repeat' split at h
      all_goals
        first
          | exact standardize_tz env _ d (toResult_date _ d h)
          | exact bodyChain_date_tz env _ d h
          | simp at h

/-- C1 witness: the theorem applied at a concrete aware input. -/
theorem utc_invariant_witness : (⟨-117, some 0⟩ : PyDatetime).tz = some 0 :=
  utc_invariant.1 envEmpty (.dt ⟨3, some 120⟩) ⟨-117, some 0⟩ (by decide)

/-! ### C3 -/

/-- C3: the full contract of `standardize_datetime`: a string that fails to
parse yields null (the function is total, so it never raises); a parsed
naive value keeps its wall-clock fields and is stamped UTC; a parsed aware
value is converted to UTC preserving the absolute instant. -/
theorem standardize_contract :
    (∀ (env : Env) (s : String), env.parse s = Option.none →
       standardize_datetime env (.str s) = Option.none)
  ∧ (∀ (env : Env) (s : String) (d : PyDatetime), env.parse s = some d →
       standardize_datetime env (.str s) = some (normalizeTz d))
  ∧ (∀ (env : Env) (w : Int),
       standardize_datetime env (.dt ⟨w, Option.none⟩) = some ⟨w, some 0⟩)
  ∧ (∀ (env : Env) (w off : Int),
       standardize_datetime env (.dt ⟨w, some off⟩) = some ⟨w - off, some 0⟩
         ∧ utcInstant ⟨w - off, some 0⟩ = utcInstant ⟨w, some off⟩) := by
  refine ⟨?_, ?_, ?_, ?_⟩
  · intro env s h; simp [standardize_datetime, h]
  · intro env s d h; simp [standardize_datetime, h]
  · intro env w; rfl
  · intro env w off; exact ⟨rfl, by simp [utcInstant]⟩

/-- C3 witness: the contract applied at concrete inputs ("bad" fails to
parse; "good-aware" parses to wall 100 at offset +60). -/
theorem standardize_contract_witness :
    standardize_datetime envW (.str "bad") = Option.none
  ∧ standardize_datetime envW (.str "good-aware") = some (normalizeTz ⟨100, some 60⟩)
  ∧ standardize_datetime envW (.dt ⟨7, Option.none⟩) = some ⟨7, some 0⟩
  ∧ standardize_datetime envW (.dt ⟨100, some 60⟩) = some ⟨40, some 0⟩
      ∧ utcInstant ⟨40, some 0⟩ = utcInstant ⟨100, some 60⟩ :=
  ⟨standardize_contract.1 envW "bad" (by decide),
   standardize_contract.2.1 envW "good-aware" ⟨100, some 60⟩ (by decide),
   standardize_contract.2.2.1 envW 7,
   standardize_contract.2.2.2 envW 100 60⟩

/-! ### C4 -/

/-- C4 (amended): for every fetch failure kind — timeout, network error, or
non-2xx status — `get_page_last_modified` returns Python `None` (a null
date with no error information) and never raises to the caller. -/
theorem fetch_failure_returns_none (env : Env) (k : ErrKind) :
    get_page_last_modified env (.err k) = PipelineResult.none := rfl

/-- C4 counterexample: a timed-out fetch, a DNS failure and a 404 response
all produce the identical bare `None`; the result carries no error field,
so it cannot equal `TimeoutError` / `NetworkError` / `HttpError` as the
claim states. -/
theorem fetch_error_kinds_indistinguishable :
    get_page_last_modified envEmpty (.err .timeout)
        = get_page_last_modified envEmpty (.err (.http 404))
  ∧ get_page_last_modified envEmpty (.err .timeout) = PipelineResult.none
  ∧ get_page_last_modified envEmpty (.err .network) = PipelineResult.none :=
  ⟨rfl, rfl, rfl⟩

/-! ### C7 -/

/-- C7: when the response carries the header
`Last-Modified: Tue, 15 Aug 2023 10:00:00 GMT` (which the external parser
reads as wall 1692093600 at offset 0, i.e. 2023-08-15T10:00:00Z), the
result is exactly that UTC instant, for every body whatsoever — the date is
resolved by the header alone. -/
theorem header_shortcut (env : Env) (soup : Soup) (text : String)
    (henv : env.parse "Tue, 15 Aug 2023 10:00:00 GMT" = some ⟨1692093600, some 0⟩) :
    get_page_last_modified env (.ok ⟨some "Tue, 15 Aug 2023 10:00:00 GMT", soup, text⟩)
      = .date ⟨1692093600, some 0⟩ := by
  have hne : ("Tue, 15 Aug 2023 10:00:00 GMT" : String) ≠ "" := by decide
  simp [get_page_last_modified, hne, standardize_datetime, henv, normalizeTz, toResult]

/-- C7 witness: the header wins even over a body carrying a conflicting,
parseable meta date. -/
theorem header_shortcut_witness :
    get_page_last_modified envC7 (.ok ⟨some "Tue, 15 Aug 2023 10:00:00 GMT",
        ⟨[], [⟨some "article:modified_time", Option.none, some "2001-01-01"⟩], []⟩, "body"⟩)
      = .date ⟨1692093600, some 0⟩ :=
  header_shortcut envC7
    ⟨[], [⟨some "article:modified_time", Option.none, some "2001-01-01"⟩], []⟩ "body" (by decide)

/-! ### C10 -/

/-- C10: a present but unparseable `last-modified` header makes
`get_page_last_modified` return `pd.NaT` immediately — for every body, so no
body-based extractor is consulted; the `except: pass` after the header
branch is unreachable because `standardize_datetime` is total (it returns
`NaT` on parse failure rather than raising). -/
theorem unparsable_header_short_circuits (env : Env) (s : String) (soup : Soup)
    (text : String) (hs : s ≠ "") (hp : env.parse s = Option.none) :
    get_page_last_modified env (.ok ⟨some s, soup, text⟩) = .NaT := by
  simp [get_page_last_modified, hs, standardize_datetime, hp, toResult]

/-- C10 witness: the body below carries a parseable meta date and a
parseable time tag, yet the unparseable header yields a bare `NaT`. -/
theorem unparsable_header_short_circuits_witness :
    get_page_last_modified envW (.ok ⟨some "bad",
        ⟨["blk"], [⟨Option.none, some "date", some "good-naive"⟩],
         [⟨some "good-aware", Option.none⟩]⟩, "txt"⟩) = .NaT :=
  unparsable_header_short_circuits envW "bad"
    ⟨["blk"], [⟨Option.none, some "date", some "good-naive"⟩],
     [⟨some "good-aware", Option.none⟩]⟩ "txt" (by decide) (by decide)

/-! ### C2 -/

theorem chain_no_header (env : Env) (r : Response)
    (h : headRaw r.lastModified = Option.none) :
    chainResolve env r = bodyChain env r := by
  unfold chainResolve rawExtracts
  rw [h]
  cases hj : extract_date_from_json_ld env r.soup.jsonLdBlocks with
  | some d => simp [firstRaw, hj, normalizeRaw, bodyChain]
  | none =>
    cases hm : extract_date_from_meta_tags env r.soup.metaTags with
    | some d => simp [firstRaw, hj, hm, normalizeRaw, bodyChain]
    | none =>
      cases hp : extract_date_from_common_patterns env r.text with
      | some d => simp [firstRaw, hj, hm, hp, normalizeRaw, bodyChain]
      | none =>
        cases ht : r.soup.timeTags.head? with
        | some t =>
          by_cases htr : truthyStr (pyOr t.datetime t.dataDatetime)
          · simp [firstRaw, hj, hm, hp, ht, htr, normalizeRaw, bodyChain]
          · simp [firstRaw, hj, hm, hp, ht, htr, normalizeRaw, bodyChain]
        | none => simp [firstRaw, hj, hm, hp, ht, normalizeRaw, bodyChain]

/-- An environment realizing C2's scenario: block "B" holds structured data
with a parseable `dateModified`, while "1999-01-01" is a parseable
conflicting meta date. -/
def envC2 : Env :=
  ⟨fun s =>
    if s = "2023-01-02" then some ⟨500, Option.none⟩
    else if s = "1999-01-01" then some ⟨10, Option.none⟩
    else Option.none,
   fun _ => Option.none,
   fun b => if b = "B" then some (.obj [("dateModified", .str "2023-01-02")]) else Option.none,
   fun _ _ => []⟩

/-- C2: the pipeline is the fixed chain HTTP header → JSON-LD → meta tags →
patterns → time tag, returning the normalization of the first strategy that
extracts a non-null raw value; in particular a page whose JSON-LD block
carries a parseable `dateModified` resolves to that structured-data value
whatever (conflicting) meta tags the page carries. -/
theorem strategy_chain_order :
    (∀ (env : Env) (r : Response),
       get_page_last_modified env (.ok r) = chainResolve env r)
  ∧ (∀ (env : Env) (b s : String) (d : PyDatetime) (metas : List MetaTag)
       (times : List TimeTag) (text : String),
       env.jsonLoads b = some (.obj [("dateModified", .str s)]) →
       env.parse s = some d →
       get_page_last_modified env (.ok ⟨Option.none, ⟨[b], metas, times⟩, text⟩)
         = .date (normalizeTz d)) := by
  constructor
  · intro env r
    obtain ⟨lm, soup, text⟩ := r
    cases lm with
    | none =>
      rw [chain_no_header env ⟨Option.none, soup, text⟩ rfl]
      rfl
    | some s =>
      by_cases hs : s = ""
      · subst hs
        rw [chain_no_header env ⟨some "", soup, text⟩ rfl]
        rfl
      · simp [get_page_last_modified, hs, chainResolve, rawExtracts, headRaw,
          firstRaw, normalizeRaw]
  · intro env b s d metas times text hb hp
    have hextract : extract_date_from_json_ld env [b] = some d := by
      simp [extract_date_from_json_ld, hb, unwrapList, date_fields, tryFields,
        pyIn, getField, parseJsonVal, List.lookup, hp]
    simp [get_page_last_modified, bodyChain, hextract, standardize_datetime, toResult]

/-- C2 witness: block "B" resolves to its `dateModified` (wall 500, naive,
so stamped UTC) despite a conflicting parseable meta date on the page. -/
theorem strategy_chain_order_witness :
    get_page_last_modified envC2 (.ok ⟨Option.none,
        ⟨["B"], [⟨some "article:modified_time", Option.none, some "1999-01-01"⟩], []⟩, ""⟩)
      = .date ⟨500, some 0⟩ :=
  strategy_chain_order.2 envC2 "B" "2023-01-02" ⟨500, Option.none⟩
    [⟨some "article:modified_time", Option.none, some "1999-01-01"⟩] [] "" rfl rfl

/-! ### C5 -/

theorem extract_json_ld_all_malformed (env : Env) :
    ∀ blocks : List String, (∀ b ∈ blocks, env.jsonLoads b = Option.none) →
      extract_date_from_json_ld env blocks = Option.none := by
  intro blocks h
  induction blocks with
  | nil => rfl
  | cons b bs ih =>
    have hb : env.jsonLoads b = Option.none := h b (by simp)
    simp only [extract_date_from_json_ld, hb]
    exact ih (fun x hx => h x (by simp [hx]))

/-- C5 counterexample: the header step of the chain does not absorb a parse
failure. On a page whose truthy header "bad" fails to parse, the pipeline
returns `NaT` without proceeding to the meta-tag strategy, although the
same page without the header resolves to its meta date — so "for every
strategy in the chain, a parse failure inside that strategy is absorbed
locally and resolution proceeds to the next strategy" is false at the header
strategy (this is the same short-circuit C10 establishes in general). -/
theorem header_parse_failure_not_absorbed :
    get_page_last_modified envW (.ok ⟨some "bad",
        ⟨[], [⟨some "article:modified_time", Option.none, some "good-naive"⟩], []⟩, ""⟩)
      = .NaT
  ∧ get_page_last_modified envW (.ok ⟨Option.none,
        ⟨[], [⟨some "article:modified_time", Option.none, some "good-naive"⟩], []⟩, ""⟩)
      = .date ⟨100, some 0⟩ :=
  ⟨rfl, rfl⟩

/-- C5 (amended): within the body strategies a parse failure is absorbed
locally and resolution proceeds: a malformed JSON-LD block is skipped; an
unparseable JSON-LD field value moves on to the next field; a selected meta
element whose content fails to parse moves on to the next property name; an
unparseable pattern match moves on to the remaining matches and patterns;
and a page all of whose JSON-LD blocks are malformed resolves exactly as
the block-free page — extraction falls through to the meta-tag extractor
without raising.  (The header step is the exception: a present unparsable
header returns `NaT` without proceeding, per the counterexample.) -/
theorem body_parse_failure_absorbed :
    (∀ (env : Env) (b : String) (bs : List String),
       env.jsonLoads b = Option.none →
       extract_date_from_json_ld env (b :: bs) = extract_date_from_json_ld env bs)
  ∧ (∀ (env : Env) (data : Json) (f : String) (fs : List String),
       pyIn f data = some true → getField env f data = Option.none →
       tryFields env data (f :: fs) = tryFields env data fs)
  ∧ (∀ (env : Env) (tags : List MetaTag) (p : String) (ps : List String) (t : MetaTag),
       selectMeta p tags = some t → truthyStr t.content = true →
       env.parse (t.content.getD "") = Option.none →
       metaLoop env tags (p :: ps) = metaLoop env tags ps)
  ∧ (∀ (env : Env) (m : String) (ms : List String),
       env.parse m = Option.none →
       firstParsedMatch env (m :: ms) = firstParsedMatch env ms)
  ∧ (∀ (env : Env) (htmlText p : String) (ps : List String),
       firstParsedMatch env (env.findall p htmlText) = Option.none →
       patLoop env htmlText (p :: ps) = patLoop env htmlText ps)
  ∧ (∀ (env : Env) (lm : Option String) (blocks : List String) (metas : List MetaTag)
       (times : List TimeTag) (text : String),
       (∀ b ∈ blocks, env.jsonLoads b = Option.none) →
       get_page_last_modified env (.ok ⟨lm, ⟨blocks, metas, times⟩, text⟩)
         = get_page_last_modified env (.ok ⟨lm, ⟨[], metas, times⟩, text⟩)) := by
  refine ⟨?_, ?_, ?_, ?_, ?_, ?_⟩
  · intro env b bs hb
    simp only [extract_date_from_json_ld, hb]
  · intro env data f fs hin hget
    simp only [tryFields, hin, hget]
  · intro env tags p ps t hsel hc hp
    simp [metaLoop, hsel, hc, hp]
  · intro env m ms hm
    simp only [firstParsedMatch, hm]
  · intro env htmlText p ps h
    simp only [patLoop, h]
  · intro env lm blocks metas times text h
    have hE := extract_json_ld_all_malformed env blocks h
    have hbody : bodyChain env ⟨lm, ⟨blocks, metas, times⟩, text⟩
        = bodyChain env ⟨lm, ⟨[], metas, times⟩, text⟩ := by
      simp only [bodyChain]
      rw [hE]
      rfl
    cases lm with
    | none => exact hbody
    | some s =>
      by_cases hs : s = ""
      · subst hs; simpa [get_page_last_modified] using hbody
      · simp [get_page_last_modified, hs]

/-- C5 witness: concrete absorptions — an unparseable meta content moves to
the next property name, and the page with one malformed block resolves
exactly as the block-free page. -/
theorem body_parse_failure_absorbed_witness :
    metaLoop envW [⟨some "article:modified_time", Option.none, some "bad"⟩]
        ("article:modified_time" :: ["article:published_time"])
      = metaLoop envW [⟨some "article:modified_time", Option.none, some "bad"⟩]
        ["article:published_time"]
  ∧ get_page_last_modified envW (.ok ⟨Option.none,
        ⟨["malformed"], [⟨some "article:modified_time", Option.none, some "good-naive"⟩], []⟩, ""⟩)
      = get_page_last_modified envW (.ok ⟨Option.none,
        ⟨[], [⟨some "article:modified_time", Option.none, some "good-naive"⟩], []⟩, ""⟩) :=
  ⟨body_parse_failure_absorbed.2.2.1 envW
     [⟨some "article:modified_time", Option.none, some "bad"⟩]
     "article:modified_time" ["article:published_time"]
     ⟨some "article:modified_time", Option.none, some "bad"⟩ rfl rfl rfl,
   body_parse_failure_absorbed.2.2.2.2.2 envW Option.none ["malformed"]
     [⟨some "article:modified_time", Option.none, some "good-naive"⟩] [] ""
     (fun _ _ => rfl)⟩

/-! ### C6 -/

theorem linkLoop_eq (env : Env) (sym : String) (links : List (String × FetchResult)) :
    ∀ acc, linkLoop env sym acc links
      = acc ++ links.map (fun q => ⟨sym, q.1, get_page_last_modified env q.2⟩) := by
  induction links with
  | nil => intro acc; simp [linkLoop]
  | cons q rest ih =>
    intro acc
    obtain ⟨url, fr⟩ := q
    simp [linkLoop, ih]

theorem symbolLoop_eq (env : Env) (symbols : List (String × SearchOutcome)) :
    ∀ acc, symbolLoop env acc symbols = acc ++ newsSpec env symbols := by
  induction symbols with
  | nil => intro acc; simp [symbolLoop, newsSpec]
  | cons p rest ih =>
    intro acc
    obtain ⟨sym, so⟩ := p
    cases so with
    | none => simp [symbolLoop, newsSpec, ih]
    | some links => simp [symbolLoop, newsSpec, ih, linkLoop_eq]

theorem newsSpec_links (env : Env) :
    ∀ symbols, (newsSpec env symbols).map NewsRow.link = urlsOf symbols := by
  intro symbols
  induction symbols with
  | nil => rfl
  | cons p rest ih =>
    obtain ⟨sym, so⟩ := p
    cases so with
    | none => simpa [newsSpec, urlsOf] using ih
    | some links => simp [newsSpec, urlsOf, ih, List.map_map, Function.comp]

/-- C6 (code bug): whenever at least one row was collected,
`get_news_links` returns exactly one row per discovered URL, in input
order — the accumulator loops equal the direct per-symbol, per-link row
list — and each row's date is a function of that URL's own fetch world
alone, so one URL's failure cannot perturb another's row.  But at the
failing input — a batch that collects no rows, here a single symbol whose
search raises, or the empty symbol list — the source raises `KeyError` at
line 219 (modeled `none`) instead of producing the empty result sequence
the claim requires. -/
theorem news_links_rows_or_keyerror :
    (∀ (env : Env) (symbols : List (String × SearchOutcome)),
       newsSpec env symbols ≠ [] →
       get_news_links env symbols
         = some ((newsSpec env symbols).map
             (fun r => { r with lastUpdated := finalizeCell env r.lastUpdated }))
         ∧ (newsSpec env symbols).map NewsRow.link = urlsOf symbols)
  ∧ get_news_links envEmpty [("AAPL", Option.none)] = Option.none
  ∧ get_news_links envEmpty [] = Option.none := by
  refine ⟨?_, rfl, rfl⟩
  intro env symbols h
  have hrows : symbolLoop env [] symbols = newsSpec env symbols := by
    simpa using symbolLoop_eq env symbols []
  obtain ⟨a, l, hn⟩ := List.exists_cons_of_ne_nil h
  constructor
  · unfold get_news_links
    rw [hrows, hn]
    simp [List.isEmpty]
  · exact newsSpec_links env symbols

/-- C6 witness: two URLs under one symbol, both with failing fetches, still
produce one row each, in input order. -/
theorem news_links_rows_or_keyerror_witness :
    get_news_links envEmpty
        [("A", some [("u1", .err .timeout), ("u2", .err .network)])]
      = some [⟨"A", "u1", .NaT⟩, ⟨"A", "u2", .NaT⟩]
  ∧ [(⟨"A", "u1", .NaT⟩ : NewsRow), ⟨"A", "u2", .NaT⟩].map NewsRow.link
      = urlsOf [("A", some [("u1", FetchResult.err .timeout),
                            ("u2", FetchResult.err .network)])] :=
  news_links_rows_or_keyerror.1 envEmpty
    [("A", some [("u1", .err .timeout), ("u2", .err .network)])] (by decide)

/-! ### C8 -/

theorem firstSome_all_none :
    ∀ l : List (Option PyDatetime), (∀ o ∈ l, o = Option.none) →
      firstSome l = Option.none := by
  intro l h
  induction l with
  | nil => rfl
  | cons o rest ih =>
    have ho : o = Option.none := h o (by simp)
    subst ho
    simp only [firstSome]
    exact ih (fun x hx => h x (by simp [hx]))

theorem extract_json_ld_eq_firstSome (env : Env) :
    ∀ blocks : List String,
      extract_date_from_json_ld env blocks
        = firstSome (blocks.map (jsonLdBlockValue env)) := by
  intro blocks
  induction blocks with
  | nil => rfl
  | cons b bs ih =>
    cases hj : env.jsonLoads b with
    | none => simp [extract_date_from_json_ld, jsonLdBlockValue, hj, firstSome, ih]
    | some data =>
      cases hu : unwrapList data with
      | none => simp [extract_date_from_json_ld, jsonLdBlockValue, hj, hu, firstSome, ih]
      | some d0 =>
        cases ht : tryFields env d0 date_fields with
        | none => simp [extract_date_from_json_ld, jsonLdBlockValue, hj, hu, ht, firstSome, ih]
        | some r =>
          cases r with
          | none => simp [extract_date_from_json_ld, jsonLdBlockValue, hj, hu, ht, firstSome, ih]
          | some r0 => simp [extract_date_from_json_ld, jsonLdBlockValue, hj, hu, ht, firstSome]

theorem tryFields_obj (env : Env) (o : List (String × Json)) :
    ∀ fs : List String, tryFields env (.obj o) fs
      = some (firstSome (fs.map (fun f => (o.lookup f).bind (parseJsonVal env)))) := by
  intro fs
  induction fs with
  | nil => rfl
  | cons f fs ih =>
    cases hl : o.lookup f with
    | none => simp [tryFields, pyIn, getField, hl, firstSome, ih]
    | some v =>
      cases hv : parseJsonVal env v with
      | none => simp [tryFields, pyIn, getField, hl, hv, firstSome, ih]
      | some d => simp [tryFields, pyIn, getField, hl, hv, firstSome]

/-- An environment realizing C8's list-unwrap scenario: block "L" is a
JSON-LD list whose head is the object that block "O" holds directly. -/
def envC8 : Env :=
  ⟨fun s => if s = "D" then some ⟨42, Option.none⟩ else Option.none,
   fun _ => Option.none,
   fun b =>
     if b = "L" then some (.arr [.obj [("datePublished", .str "D")], .str "junk"])
     else if b = "O" then some (.obj [("datePublished", .str "D")])
     else Option.none,
   fun _ _ => []⟩

/-- C8: the JSON-LD extractor returns the first block (in document order)
that yields a value; a block whose payload is a non-empty list is inspected
exactly as a block holding its first element alone; within an object the
fields are checked in the fixed order of `date_fields` and the first one
present whose value parses wins; and when no block yields a parseable
field the extractor returns null. -/
theorem json_ld_contract :
    (∀ (env : Env) (blocks : List String),
       extract_date_from_json_ld env blocks
         = firstSome (blocks.map (jsonLdBlockValue env)))
  ∧ (∀ (env : Env) (b b' : String) (bs : List String) (x : Json) (xs : List Json),
       env.jsonLoads b = some (.arr (x :: xs)) → env.jsonLoads b' = some x →
       (∀ es, x ≠ .arr es) →
       extract_date_from_json_ld env (b :: bs) = extract_date_from_json_ld env (b' :: bs))
  ∧ (∀ (env : Env) (o : List (String × Json)),
       tryFields env (.obj o) date_fields
         = some (firstSome (date_fields.map (fun f => (o.lookup f).bind (parseJsonVal env)))))
  ∧ (∀ (env : Env) (blocks : List String),
       (∀ b ∈ blocks, jsonLdBlockValue env b = Option.none) →
       extract_date_from_json_ld env blocks = Option.none) := by
  refine ⟨?_, ?_, ?_, ?_⟩
  · exact extract_json_ld_eq_firstSome
  · intro env b b' bs x xs hb hb' hx
    have hux : unwrapList x = some x := by
      cases x with
      | arr es => exact absurd rfl (hx es)
      | obj o => rfl
      | str s => rfl
      | num n => rfl
      | bool v => rfl
      | null => rfl
    have ha : unwrapList (.arr (x :: xs)) = some x := rfl
    simp only [extract_date_from_json_ld, hb, hb', ha, hux]
  · intro env o
    exact tryFields_obj env o date_fields
  · intro env blocks h
    rw [extract_json_ld_eq_firstSome]
    exact firstSome_all_none _ (by simpa using h)

/-- C8 witness: the list block "L" resolves exactly as the object block "O"
(both to `datePublished` = wall 42), and a page of unloadable blocks
resolves to null. -/
theorem json_ld_contract_witness :
    extract_date_from_json_ld envC8 ["L"] = extract_date_from_json_ld envC8 ["O"]
  ∧ extract_date_from_json_ld envW ["x", "y"] = Option.none :=
  ⟨json_ld_contract.2.1 envC8 "L" "O" [] (.obj [("datePublished", .str "D")])
     [.str "junk"] rfl rfl (fun _ h => Json.noConfusion h),
   json_ld_contract.2.2.2 envW ["x", "y"] (fun _ _ => rfl)⟩

/-! ### C9 -/

/-- C9 (amended): for each property name in order, the extractor considers
only the single element selected by `selectMeta` (the first element
matching by `property`, or if none matches by `property`, the first
matching by `name`); if that element has truthy content that parses, its
date is returned, otherwise the next name is tried, and null results when
the name list is exhausted. -/
theorem meta_extractor_per_property (env : Env) (tags : List MetaTag) :
    extract_date_from_meta_tags env tags
      = firstSome (meta_date_properties.map (metaPropValue env tags)) := by
  unfold extract_date_from_meta_tags
  generalize meta_date_properties = ps
  induction ps with
  | nil => rfl
  | cons p ps ih =>
    cases hs : selectMeta p tags with
    | none => simp [metaLoop, metaPropValue, hs, firstSome, ih]
    | some t =>
      by_cases hc : truthyStr t.content
      · cases hp : env.parse (t.content.getD "") with
        | none => simp [metaLoop, metaPropValue, hs, hc, hp, firstSome, ih]
        | some d => simp [metaLoop, metaPropValue, hs, hc, hp, firstSome]
      · simp [metaLoop, metaPropValue, hs, hc, firstSome, ih]

/-- An environment whose parser knows "2023-08-15", for C9's
counterexample. -/
def envC9 : Env :=
  ⟨fun s => if s = "2023-08-15" then some ⟨1692057600, Option.none⟩ else Option.none,
   fun _ => Option.none, fun _ => Option.none, fun _ _ => []⟩

/-- C9's counterexample document: the first element matches `date` by its
`property` attribute but has no content; the second matches `date` by its
`name` attribute and has non-empty, parseable content. -/
def tagsC9 : List MetaTag :=
  [⟨some "date", Option.none, Option.none⟩,
   ⟨Option.none, some "date", some "2023-08-15"⟩]

/-- C9 counterexample: `date` is a listed property name, the second element
of `tagsC9` matches it by `name` with non-empty content that parses — so
under the claim "the first matching element with a non-empty content value
that parses is returned" the extractor would return that date — yet the code
returns null: the content-less `property` match shadows it and the
extractor moves on to the next property name, never revisiting `date`. -/
theorem meta_first_match_counterexample :
    "date" ∈ meta_date_properties
  ∧ findMetaBy MetaTag.name "date" tagsC9
      = some ⟨Option.none, some "date", some "2023-08-15"⟩
  ∧ truthyStr (some "2023-08-15") = true
  ∧ envC9.parse "2023-08-15" = some ⟨1692057600, Option.none⟩
  ∧ extract_date_from_meta_tags envC9 tagsC9 = Option.none :=
  ⟨by decide, rfl, rfl, rfl, rfl⟩

end StockView
